import Mathlib

/-!
# Verification of the `dynamic-plugin` signature hashing and loading core

Shallow embedding of the Rust sources:
* `dynamic-plugin-macros/src/hasher.rs` — the rolling signature hasher;
* `dynamic-plugin-macros/src/lib.rs` — `hash_type`, `type_to_string`, and the
  generated host facade (`load_plugin`, `load_plugin_and_check_compat`,
  `find_plugins`);
* `dynamic-plugin-macros/src/def.rs` — `PluginDefinition` and its `Hash` impl
  (the host-side `PLUGIN_SIGNATURE`);
* `dynamic-plugin-macros/src/implementation.rs` — `PluginImplementation` and
  its `Hash` impl (the plugin-side `_dynamic_plugin_signature`);
* `src/lib.rs` — the `Error` enum.

Machine integers are modelled as `Nat` with explicit reduction mod `2 ^ 64`.
Byte streams fed to the hasher are `List Nat`.  Rust's `Hash for str` (and
`proc_macro2::Ident`, which hashes as its string) writes the UTF-8 bytes of
the string followed by a single `0xff` delimiter byte; we model a string's
bytes by the code points of its characters, which coincides with UTF-8 for
the ASCII identifiers and tokens involved, and in general keeps the stream a
function of the string.
-/

/-! ## The rolling hasher (`hasher.rs`) -/

/-- `u64::rotate_left(8)` on a value `x < 2 ^ 64`:
the low 56 bits move up 8 places and the top 8 bits wrap to the bottom. -/
def rotl8 (x : Nat) : Nat := (x * 256) % 2 ^ 64 + x / 2 ^ 56

/-- One step of `PluginSignatureHasher::write`:
`self.inner = self.inner.wrapping_add(u64::from(*byte)).rotate_left(8)`. -/
def hashStep (s b : Nat) : Nat := rotl8 ((s + b) % 2 ^ 64)

/-- `PluginSignatureHasher::write`, fed one chunk of bytes: the byte loop. -/
def hasherWrite (s : Nat) (bytes : List Nat) : Nat := bytes.foldl hashStep s

/-- `PluginSignatureHasher::finish`: returns the accumulator unchanged. -/
def hasherFinish (s : Nat) : Nat := s

/-- Hash of a complete byte stream from the default state (`inner = 0`). -/
def hashBytes (bytes : List Nat) : Nat := bytes.foldl hashStep 0

/-- The bytes of a string, by character code point (UTF-8 for ASCII). -/
def strBytes (s : String) : List Nat := s.data.map Char.toNat

/-- The byte stream Rust's `Hash for str` / `Hash for proc_macro2::Ident`
feeds to a hasher: the string's bytes followed by the `0xff` delimiter. -/
def strHashBytes (s : String) : List Nat := strBytes s ++ [255]

/-! ## The surface type grammar (the `syn::Type` subset the macros consume) -/

/-- Arguments attached to the final segment of a type path
(`syn::PathArguments`); `hash_type` and `type_to_string` only ever test
whether they are `none`, but we record which construct supplied them. -/
inductive PathArgs where
  | none
  | genericTypes
  | lifetimes
  | parenthesized
deriving DecidableEq, Repr

/-- One segment of a type path (`syn::PathSegment`). -/
structure PathSeg where
  ident : String
  arguments : PathArgs
deriving DecidableEq, Repr

/-- The subset of `syn::Type` the macros pattern-match on.  A path type
carries its leading segments and, separately, its final segment (`syn`
guarantees a path is non-empty; the code calls `.last().unwrap()`).
Constructors that `hash_type` rejects keep only the payload the code
could look at (it never does). -/
inductive Ty where
  | array (elem : Ty)
  | bareFn (inputs : List Ty) (variadic : Bool) (output : Option Ty)
  | group (elem : Ty)
  | paren (elem : Ty)
  | ptr (mutable : Bool) (elem : Ty)
  | never
  | path (qself : Bool) (segs : List PathSeg) (lastSeg : PathSeg)
  | reference (elem : Ty)
  | slice (elem : Ty)
  | traitObject
  | tuple
  | infer
  | implTrait
  | macroTy
  | verbatim

/-! ## `hash_type` (`lib.rs:454-520`)

`abort!` (a `proc_macro_error` rejection) is modelled as `Except.error`
carrying the abort message; on success we return the byte stream the
function feeds to the hasher.  `"s".hash(state)` feeds `strHashBytes s`,
`ident.hash(state)` feeds `strHashBytes ident`. -/

mutual

def hashType : Ty → Except String (List Nat)
  | .array elem =>
    match hashType elem with
    | .error e => .error e
    | .ok inner => .ok (strHashBytes "arr" ++ inner)
  | .bareFn inputs variadic output =>
    match hashTypeList inputs with
    | .error e => .error e
    | .ok inps =>
      if variadic then
        .error "Bare functions with variadics are not supported in plugin interfaces"
      else
        match output with
        | .none =>
          .ok (strHashBytes "fn" ++ inps ++ strHashBytes "->" ++ strHashBytes "()" ++
            strHashBytes ";")
        | .some t =>
          match hashType t with
          | .error e => .error e
          | .ok outBytes =>
            .ok (strHashBytes "fn" ++ inps ++ strHashBytes "->" ++ outBytes ++
              strHashBytes ";")
  | .group elem => hashType elem
  | .implTrait => .error "Traits are supported in plugin interfaces"
  | .infer => .error "Compiler inference is supported in plugin interfaces"
  | .macroTy => .error "Macros are not supported in plugin interfaces"
  | .never => .ok (strHashBytes "never")
  | .paren elem => hashType elem
  | .path qself _segs lastSeg =>
    if qself then
      .error "Qualified types are not supported in plugin interfaces"
    else if lastSeg.arguments ≠ PathArgs.none then
      .error "Types cannot be generic or require lifetimes in plugin interfaces"
    else
      .ok (strHashBytes lastSeg.ident)
  | .ptr _ elem => hashType elem
  | .reference _ => .error "References are not supported in plugin interfaces (use raw pointers instead)"
  | .slice _ => .error "Slices are not supported in plugin interfaces (use raw pointers instead)"
  | .traitObject => .error "Trait objects not supported in plugin interfaces"
  | .tuple => .error "Tuples not supported in plugin interfaces"
  | .verbatim => .error "This type is not supported in plugin interfaces"

def hashTypeList : List Ty → Except String (List Nat)
  | [] => .ok []
  | t :: ts =>
    match hashType t with
    | .error e => .error e
    | .ok b =>
      match hashTypeList ts with
      | .error e => .error e
      | .ok bs => .ok (b ++ bs)

end

/-! ## `type_to_string` (`lib.rs:401-452`)

Returns `none` where the Rust returns `None`.  The Rust bare-function case
pushes each input followed by `", "` and then pops the trailing two
characters; that equals `String.intercalate ", "` of the rendered inputs. -/

mutual

def typeToString : Ty → Option String
  | .array elem =>
    match typeToString elem with
    | .none => .none
    | .some s => .some ("[" ++ s ++ "]")
  | .bareFn inputs variadic output =>
    match typeToStringList inputs with
    | .none => .none
    | .some parts =>
      let core := "unsafe extern \"C\" fn(" ++ String.intercalate ", " parts ++ ")"
      if variadic then .none
      else
        match output with
        | .none => .some core
        | .some t =>
          match typeToString t with
          | .none => .none
          | .some s => .some (core ++ "-> " ++ s)
  | .group elem => typeToString elem
  | .paren elem => typeToString elem
  | .ptr _ elem => typeToString elem
  | .never => .some "!"
  | .path qself _segs lastSeg =>
    if qself then .none
    else if lastSeg.arguments ≠ PathArgs.none then .none
    else .some lastSeg.ident
  | .reference _ => .none
  | .slice _ => .none
  | .traitObject => .none
  | .tuple => .none
  | .infer => .none
  | .implTrait => .none
  | .macroTy => .none
  | .verbatim => .none

def typeToStringList : List Ty → Option (List String)
  | [] => .some []
  | t :: ts =>
    match typeToString t with
    | .none => .none
    | .some s =>
      match typeToStringList ts with
      | .none => .none
      | .some ss => .some (s :: ss)

end

/-! ## Interface definitions and implementations (`def.rs`, `implementation.rs`)

`PluginFunction` carries what both `Hash` impls read: the function name, the
argument list (`syn::FnArg`: a receiver or a typed pattern — only the type is
used), and the optional return type.  Doc attributes are not read by any
hashing or rejection code and are omitted. -/

/-- `syn::FnArg`: a receiver (`self`) or a typed argument (type only). -/
inductive FnArg where
  | receiver
  | typed (ty : Ty)

/-- One parsed interface/implementation function. -/
structure PluginFunction where
  name : String
  arguments : List FnArg
  returnType : Option Ty

/-- A parsed `plugin_interface!` body (`def.rs`): interface name and
functions in declaration order. -/
structure PluginDefinition where
  name : String
  functions : List PluginFunction

/-- Lexicographic byte-list comparison: Rust's `Ord for str` compares the
UTF-8 byte sequences lexicographically, and UTF-8 order coincides with
code-point order. -/
def bytesLe : List Nat → List Nat → Bool
  | [], _ => true
  | _ :: _, [] => false
  | a :: as_, b :: bs =>
    if a < b then true
    else if b < a then false
    else bytesLe as_ bs

/-- The comparator `|a, b| a.name.cmp(&b.name)` used by both `Hash` impls. -/
def nameLe (a b : PluginFunction) : Prop :=
  bytesLe (strBytes a.name) (strBytes b.name) = true

instance : DecidableRel nameLe := fun a b =>
  inferInstanceAs (Decidable (bytesLe (strBytes a.name) (strBytes b.name) = true))

/-- `functions.sort_by(|a, b| a.name.cmp(&b.name))`: Rust's `sort_by` is a
stable sort; `List.insertionSort` with the non-strict name order is stable
and therefore computes the same list. -/
def sortByName (fs : List PluginFunction) : List PluginFunction :=
  List.insertionSort nameLe fs

/-! ### Host-side hash: `impl Hash for PluginDefinition` (`def.rs:15-41`)

The definition-side `Hash` impl feeds, in order: the interface name
(`Ident::hash`), then for each function in name-sorted order the function
name, then each typed argument's type via **`syn::Type`'s own derived `Hash`
impl** (`ty.hash(state)` — not `crate::hash_type`), then the return type the
same way.  No `"fn"`/`"arg"`/`"ret"` discriminator tokens are fed.  `syn` is
an external crate; the byte stream its derived `Hash` feeds for a type value
is modelled as an arbitrary function `synTypeBytes : Ty → List Nat`, and
every theorem about this hash is proved for all such functions. -/

/-- Bytes the definition-side `Hash` impl feeds for one argument. -/
def defArgBytes (synTypeBytes : Ty → List Nat) : FnArg → List Nat
  | .receiver => []
  | .typed ty => synTypeBytes ty

/-- Bytes the definition-side `Hash` impl feeds for one function. -/
def defFnBytes (synTypeBytes : Ty → List Nat) (f : PluginFunction) : List Nat :=
  strHashBytes f.name ++
    (f.arguments.map (defArgBytes synTypeBytes)).flatten ++
    (match f.returnType with
     | .none => []
     | .some ty => synTypeBytes ty)

/-- The full byte stream of `PluginDefinition::hash` (`def.rs:15-41`). -/
def defHashBytes (synTypeBytes : Ty → List Nat) (d : PluginDefinition) : List Nat :=
  strHashBytes d.name ++ ((sortByName d.functions).map (defFnBytes synTypeBytes)).flatten

/-- The host-side `PLUGIN_SIGNATURE` (`lib.rs:40-42,294`): the definition
hashed through `PluginSignatureHasher`. -/
def defHash (synTypeBytes : Ty → List Nat) (d : PluginDefinition) : Nat :=
  hashBytes (defHashBytes synTypeBytes d)

/-! ### Plugin-side hash: `impl Hash for PluginImplementation`
(`implementation.rs:13-51`)

Feeds the last segment of the target plugin path, then for each function in
name-sorted order: `"fn"`, the function name, for each typed argument
`"arg"` followed by `crate::hash_type`, and for a non-default return type
`"ret"` followed by `crate::hash_type`.  `hash_type` can abort, so the
stream is `Except`-valued. -/

/-- Byte stream for one implementation-side argument. -/
def implArgBytes : FnArg → Except String (List Nat)
  | .receiver => .ok []
  | .typed ty =>
    match hashType ty with
    | .error e => .error e
    | .ok b => .ok (strHashBytes "arg" ++ b)

/-- Byte streams for an implementation-side argument list, aborting at the
first rejected type (as `abort!` does). -/
def implArgListBytes : List FnArg → Except String (List Nat)
  | [] => .ok []
  | a :: as_ =>
    match implArgBytes a with
    | .error e => .error e
    | .ok b =>
      match implArgListBytes as_ with
      | .error e => .error e
      | .ok bs => .ok (b ++ bs)

/-- Byte stream for one implementation-side function. -/
def implFnBytes (f : PluginFunction) : Except String (List Nat) :=
  match implArgListBytes f.arguments with
  | .error e => .error e
  | .ok args =>
    match f.returnType with
    | .none => .ok (strHashBytes "fn" ++ strHashBytes f.name ++ args)
    | .some ty =>
      match hashType ty with
      | .error e => .error e
      | .ok r =>
        .ok (strHashBytes "fn" ++ strHashBytes f.name ++ args ++ strHashBytes "ret" ++ r)

/-- Byte streams for a sorted implementation function list. -/
def implFnListBytes : List PluginFunction → Except String (List Nat)
  | [] => .ok []
  | f :: fs =>
    match implFnBytes f with
    | .error e => .error e
    | .ok b =>
      match implFnListBytes fs with
      | .error e => .error e
      | .ok bs => .ok (b ++ bs)

/-- The full byte stream of `PluginImplementation::hash`
(`implementation.rs:13-51`): the target plugin's final path-segment ident,
then the sorted functions. -/
def implHashBytes (typeIdent : String) (fns : List PluginFunction) :
    Except String (List Nat) :=
  match implFnListBytes (sortByName fns) with
  | .error e => .error e
  | .ok b => .ok (strHashBytes typeIdent ++ b)

/-- The plugin-side signature `_dynamic_plugin_signature` would return
(`lib.rs:357-359,388-390`), or the abort reason. -/
def implHash (typeIdent : String) (fns : List PluginFunction) : Except String Nat :=
  match implHashBytes typeIdent fns with
  | .error e => .error e
  | .ok b => .ok (hashBytes b)

/-! ## The interface macro's definition string (`lib.rs:206-262`)

`plugin_interface!` first computes the hash (total, above), then builds the
`PLUGIN_DEFINITION` string, rendering every argument and return type with
`type_to_string(..).expect("this should have failed earlier! please open a
bug report!")`.  The `expect` on `None` is a panic; we model the panic as
`Except.error` carrying the `expect` message.  Doc-comment lines derived
from attributes are omitted (the model's functions carry no attributes). -/

/-- The panic message of the `.expect(..)` calls at `lib.rs:241-243,253-255`. -/
def expectPanicMsg : String := "this should have failed earlier! please open a bug report!"

/-- Render one argument of the stub definition (`lib.rs:236-245`):
a receiver renders as `self`, a typed argument as `_: <type>`, panicking if
`type_to_string` returned `None`. -/
def defStringArg : FnArg → Except String String
  | .receiver => .ok "self"
  | .typed ty =>
    match typeToString ty with
    | .none => .error expectPanicMsg
    | .some s => .ok ("_: " ++ s)

/-- Render an argument list with `", "` separators between entries. -/
def defStringArgList : List FnArg → Except String String
  | [] => .ok ""
  | [a] =>
    match defStringArg a with
    | .error e => .error e
    | .ok s => .ok s
  | a :: rest =>
    match defStringArg a with
    | .error e => .error e
    | .ok s =>
      match defStringArgList rest with
      | .error e => .error e
      | .ok t => .ok (s ++ ", " ++ t)

/-- Render one function stub (`lib.rs:233-259`). -/
def defStringFn (f : PluginFunction) : Except String String :=
  match defStringArgList f.arguments with
  | .error e => .error e
  | .ok args =>
    match f.returnType with
    | .none =>
      .ok ("fn " ++ f.name ++ "(" ++ args ++ ")" ++
        " \x7b todo!(\"not yet implemented\") \x7d" ++ "\n")
    | .some ty =>
      match typeToString ty with
      | .none => .error expectPanicMsg
      | .some r =>
        .ok ("fn " ++ f.name ++ "(" ++ args ++ ")" ++ " -> " ++ r ++
          " \x7b todo!(\"not yet implemented\") \x7d" ++ "\n")

/-- The `PLUGIN_DEFINITION` string built over all functions in declaration
order (`lib.rs:206-262`), or the panic. -/
def buildDefinitionString : List PluginFunction → Except String String
  | [] => .ok ""
  | f :: fs =>
    match defStringFn f with
    | .error e => .error e
    | .ok s =>
      match buildDefinitionString fs with
      | .error e => .error e
      | .ok t => .ok (s ++ t)

/-- The observable outcome of expanding `plugin_interface!` on a parsed
definition: the hash is computed first (`lib.rs:40-42`, total — the
definition-side `Hash` impl never aborts), then the definition string
(`lib.rs:206-262`, which panics on a type `type_to_string` rejects). -/
def pluginInterfaceMacro (synTypeBytes : Ty → List Nat) (d : PluginDefinition) :
    Except String (Nat × String) :=
  match buildDefinitionString d.functions with
  | .error e => .error e
  | .ok s => .ok (defHash synTypeBytes d, s)

/-! ## The loading facade (`lib.rs:88-197`) and the `Error` enum
(`src/lib.rs:20-33`)

The OS loader (`libloading`) is the spec's external collaborator: a library
is modelled by its exported symbol names plus the value its
`_dynamic_plugin_signature` probe would return; `library.get(name)`
succeeds exactly when `name` is exported.  An open attempt is an
`Except Unit DynLibrary` (the `?` on `PluginDynamicLibrary::new` maps an
open failure to `Error::DynamicLibrary`). -/

/-- `dynamic_plugin::Error` (`src/lib.rs:20-33`).  Exactly three variants:
there is no `SymbolResolutionFailed` variant. -/
inductive PluginError where
  | dynamicLibrary
  | notAPlugin
  | invalidPluginSignature
deriving DecidableEq, Repr

/-- A loaded shared library, as the facade can observe it. -/
structure DynLibrary where
  symbols : List String
  sigValue : Nat
deriving DecidableEq, Repr

/-- The result of `load_plugin` together with whether the signature probe
(the plugin's `_dynamic_plugin_signature` function) was invoked. -/
structure LoadOutcome where
  result : Except PluginError DynLibrary
  probeInvoked : Bool
deriving Repr

/-- The well-known symbol name (`lib.rs:151`, `lib.rs:388`). -/
def wellKnownSymbol : String := "_dynamic_plugin_signature"

/-- `load_plugin` (`lib.rs:141-165`): open the library, resolve the
well-known symbol (absence is `NotAPlugin`), and if `check_signature` is
set invoke the probe and compare with the compiled-in expected hash. -/
def load_plugin (openResult : Except Unit DynLibrary) (expectedHash : Nat)
    (checkSignature : Bool) : LoadOutcome :=
  match openResult with
  | .error _ => ⟨.error .dynamicLibrary, false⟩
  | .ok lib =>
    if wellKnownSymbol ∈ lib.symbols then
      if checkSignature then
        if lib.sigValue ≠ expectedHash then ⟨.error .invalidPluginSignature, true⟩
        else ⟨.ok lib, true⟩
      else ⟨.ok lib, false⟩
    else ⟨.error .notAPlugin, false⟩

/-- The expanded `fn_checks` sequence (`lib.rs:88-94,190-191`): resolve each
interface function's symbol by name, in declaration order; any failure is
mapped to `Error::NotAPlugin`.  Only presence is tested — the symbol is cast
to `unsafe extern fn()` without inspecting its real type. -/
def fnChecks (lib : DynLibrary) : List String → Except PluginError Unit
  | [] => .ok ()
  | n :: ns =>
    if n ∈ lib.symbols then fnChecks lib ns else .error .notAPlugin

/-- `load_plugin_and_check_compat` (`lib.rs:182-197`): open the library and
run the per-function symbol checks. -/
def load_plugin_and_check_compat (openResult : Except Unit DynLibrary)
    (expectedFns : List String) : Except PluginError DynLibrary :=
  match openResult with
  | .error _ => .error .dynamicLibrary
  | .ok lib =>
    match fnChecks lib expectedFns with
    | .error e => .error e
    | .ok _ => .ok lib

/-- A directory entry as `find_plugins` sees it: `none` when the
`read_dir` iterator yielded `Err` for the entry, otherwise the outcome of
attempting to open that path as a library. -/
abbrev DirEntry : Type := Option (Except Unit DynLibrary)

/-- `find_plugins` (`lib.rs:101-120`): `none` models `read_dir` itself
failing (the `if let Ok(paths)` falls through and the empty vector is
returned); otherwise each readable entry is tried with
`load_plugin_and_check` = `load_plugin(path, true)` and failures of any
kind are silently skipped. -/
def find_plugins_list : List DirEntry → Nat → List DynLibrary
  | [], _ => []
  | e :: rest, expectedHash =>
    match e with
    | .none => find_plugins_list rest expectedHash
    | .some openRes =>
      match (load_plugin openRes expectedHash true).result with
      | .ok p => p :: find_plugins_list rest expectedHash
      | .error _ => find_plugins_list rest expectedHash

def find_plugins (dirListing : Option (List DirEntry)) (expectedHash : Nat) :
    List DynLibrary :=
  match dirListing with
  | .none => []
  | .some entries => find_plugins_list entries expectedHash

/-! ## Auxiliary instances and order theory for the name comparator -/

/-- Decidable equality for `Except` results (hash outcomes, load errors). -/
def exceptDecEq {ε α : Type} [DecidableEq ε] [DecidableEq α] :
    DecidableEq (Except ε α)
  | .ok a, .ok b =>
    if h : a = b then .isTrue (by rw [h])
    else .isFalse (by intro he; cases he; exact h rfl)
  | .ok _, .error _ => .isFalse (by intro h; cases h)
  | .error _, .ok _ => .isFalse (by intro h; cases h)
  | .error e, .error f =>
    if h : e = f then .isTrue (by rw [h])
    else .isFalse (by intro he; cases he; exact h rfl)

instance {ε α : Type} [DecidableEq ε] [DecidableEq α] : DecidableEq (Except ε α) :=
  exceptDecEq

theorem bytesLe_total : ∀ x y : List Nat, bytesLe x y = true ∨ bytesLe y x = true
  | [], [] => .inl rfl
  | [], _ :: _ => .inl rfl
  | _ :: _, [] => .inr rfl
  | a :: as_, b :: bs => by
    rcases Nat.lt_trichotomy a b with h | h | h
    · left; simp [bytesLe, h]
    · subst h
      rcases bytesLe_total as_ bs with ih | ih
      · left; simp [bytesLe, ih]
      · right; simp [bytesLe, ih]
    · right; simp [bytesLe, h]

theorem bytesLe_trans :
    ∀ x y z : List Nat, bytesLe x y = true → bytesLe y z = true → bytesLe x z = true
  | [], _, _, _, _ => rfl
  | _ :: _, [], _, hxy, _ => by simp [bytesLe] at hxy
  | _ :: _, _ :: _, [], _, hyz => by simp [bytesLe] at hyz
  | a :: as_, b :: bs, c :: cs, hxy, hyz => by
    by_cases hab : a < b
    · by_cases hbc : b < c
      · simp [bytesLe, Nat.lt_trans hab hbc]
      · by_cases hcb : c < b
        · simp [bytesLe, hbc, hcb] at hyz
        · have : b = c := Nat.le_antisymm (Nat.le_of_not_lt hcb) (Nat.le_of_not_lt hbc)
          subst this
          simp [bytesLe, hab]
    · by_cases hba : b < a
      · simp [bytesLe, hab, hba] at hxy
      · have hab' : a = b := Nat.le_antisymm (Nat.le_of_not_lt hba) (Nat.le_of_not_lt hab)
        subst hab'
        by_cases hac : a < c
        · simp [bytesLe, hac]
        · by_cases hca : c < a
          · simp [bytesLe, hca, hac] at hyz
          · have : a = c := Nat.le_antisymm (Nat.le_of_not_lt hca) (Nat.le_of_not_lt hac)
            subst this
            simp [bytesLe, Nat.lt_irrefl] at hxy hyz ⊢
            exact bytesLe_trans as_ bs cs hxy hyz

theorem bytesLe_antisymm :
    ∀ x y : List Nat, bytesLe x y = true → bytesLe y x = true → x = y
  | [], [], _, _ => rfl
  | [], _ :: _, _, hyx => by simp [bytesLe] at hyx
  | _ :: _, [], hxy, _ => by simp [bytesLe] at hxy
  | a :: as_, b :: bs, hxy, hyx => by
    rcases Nat.lt_trichotomy a b with h | h | h
    · simp [bytesLe, h, Nat.lt_asymm h] at hyx
    · subst h
      simp [bytesLe, Nat.lt_irrefl] at hxy hyx
      rw [bytesLe_antisymm as_ bs hxy hyx]
    · simp [bytesLe, h, Nat.lt_asymm h] at hxy

theorem strBytes_injective {s t : String} (h : strBytes s = strBytes t) : s = t := by
  apply String.ext
  have : ∀ l₁ l₂ : List Char, l₁.map Char.toNat = l₂.map Char.toNat → l₁ = l₂ := by
    intro l₁
    induction l₁ with
    | nil => intro l₂ h2; cases l₂ with
      | nil => rfl
      | cons c cs => simp at h2
    | cons c cs ih => intro l₂ h2; cases l₂ with
      | nil => simp at h2
      | cons d ds =>
        simp only [List.map_cons, List.cons.injEq] at h2
        have hc : c = d := by
          have h3 := congrArg Char.ofNat h2.1
          rwa [Char.ofNat_toNat, Char.ofNat_toNat] at h3
        exact hc ▸ congrArg (c :: ·) (ih ds h2.2)
  exact this s.data t.data h

instance : IsTotal PluginFunction nameLe :=
  ⟨fun a b => bytesLe_total (strBytes a.name) (strBytes b.name)⟩

instance : IsTrans PluginFunction nameLe :=
  ⟨fun a b c => bytesLe_trans (strBytes a.name) (strBytes b.name) (strBytes c.name)⟩

theorem name_eq_of_nameLe_both {a b : PluginFunction}
    (h₁ : nameLe a b) (h₂ : nameLe b a) : a.name = b.name :=
  strBytes_injective (bytesLe_antisymm _ _ h₁ h₂)

/-! ## Sorting: two name-sorted permutations with distinct names are equal -/

theorem bytesLe_refl : ∀ x : List Nat, bytesLe x x = true
  | [] => rfl
  | a :: as_ => by simp [bytesLe, Nat.lt_irrefl, bytesLe_refl as_]

theorem sorted_perm_nodup_names_eq :
    ∀ {l₁ l₂ : List PluginFunction}, l₁.Sorted nameLe → l₂.Sorted nameLe →
      l₁.Perm l₂ → (l₁.map PluginFunction.name).Nodup → l₁ = l₂ := by
  intro l₁
  induction l₁ with
  | nil =>
    intro l₂ _ _ hp _
    exact (hp.nil_eq).symm ▸ rfl
  | cons a t₁ ih =>
    intro l₂ hs₁ hs₂ hp hn
    cases l₂ with
    | nil => exact absurd hp.symm.nil_eq (by simp)
    | cons b t₂ =>
      have hab : a = b := by
        have hmem_a : a ∈ b :: t₂ := hp.subset (by simp)
        have hmem_b : b ∈ a :: t₁ := hp.symm.subset (by simp)
        have hba : nameLe b a := by
          rcases List.mem_cons.mp hmem_a with h | h
          · rw [h]; exact bytesLe_refl _
          · exact List.rel_of_sorted_cons hs₂ a h
        have hab' : nameLe a b := by
          rcases List.mem_cons.mp hmem_b with h | h
          · rw [h]; exact bytesLe_refl _
          · exact List.rel_of_sorted_cons hs₁ b h
        rcases List.mem_cons.mp hmem_b with h | h
        · exact h.symm
        · exfalso
          have hname : a.name = b.name := name_eq_of_nameLe_both hab' hba
          have : b.name ∈ t₁.map PluginFunction.name := List.mem_map_of_mem _ h
          have hnot := (List.nodup_cons.mp hn).1
          exact hnot (hname ▸ this)
      subst hab
      have := ih hs₁.of_cons hs₂.of_cons hp.cons_inv (List.nodup_cons.mp hn).2
      rw [this]

/-- Sorting by name is invariant under permutation of the input when the
function names are pairwise distinct. -/
theorem sortByName_perm_eq {fs fs' : List PluginFunction}
    (hp : fs.Perm fs') (hn : (fs.map PluginFunction.name).Nodup) :
    sortByName fs = sortByName fs' := by
  have h₁ := List.sorted_insertionSort nameLe fs
  have h₂ := List.sorted_insertionSort nameLe fs'
  have hperm : (sortByName fs).Perm (sortByName fs') :=
    (List.perm_insertionSort nameLe fs).trans
      (hp.trans (List.perm_insertionSort nameLe fs').symm)
  have hsn : ((sortByName fs).map PluginFunction.name).Nodup :=
    (((List.perm_insertionSort nameLe fs).map PluginFunction.name).nodup_iff).mpr hn
  exact sorted_perm_nodup_names_eq h₁ h₂ hperm hsn

/-! ## Hash congruence: descriptions related by a hash-preserving type
relation produce the same implementation-side signature -/

/-- Pointwise relation on arguments induced by a type relation: receivers
match receivers, typed arguments carry related types. -/
inductive ArgRel (R : Ty → Ty → Prop) : FnArg → FnArg → Prop where
  | receiver : ArgRel R .receiver .receiver
  | typed {t t' : Ty} : R t t' → ArgRel R (.typed t) (.typed t')

/-- Relation on optional return types induced by a type relation. -/
inductive OptRel (R : Ty → Ty → Prop) : Option Ty → Option Ty → Prop where
  | none : OptRel R .none .none
  | some {t t' : Ty} : R t t' → OptRel R (.some t) (.some t')

/-- Two functions with the same name whose corresponding argument and
return types are related by `R`. -/
structure FnRel (R : Ty → Ty → Prop) (f f' : PluginFunction) : Prop where
  name_eq : f.name = f'.name
  args : List.Forall₂ (ArgRel R) f.arguments f'.arguments
  ret : OptRel R f.returnType f'.returnType

theorem implArgBytes_congr {R : Ty → Ty → Prop}
    (hR : ∀ t t', R t t' → hashType t = hashType t')
    {a a' : FnArg} (h : ArgRel R a a') : implArgBytes a = implArgBytes a' := by
  cases h with
  | receiver => rfl
  | typed ht => simp only [implArgBytes, hR _ _ ht]

theorem implArgListBytes_congr {R : Ty → Ty → Prop}
    (hR : ∀ t t', R t t' → hashType t = hashType t')
    {as_ as' : List FnArg} (h : List.Forall₂ (ArgRel R) as_ as') :
    implArgListBytes as_ = implArgListBytes as' := by
  induction h with
  | nil => rfl
  | cons ha _ ih => simp only [implArgListBytes, implArgBytes_congr hR ha, ih]

theorem implFnBytes_congr {R : Ty → Ty → Prop}
    (hR : ∀ t t', R t t' → hashType t = hashType t')
    {f f' : PluginFunction} (h : FnRel R f f') : implFnBytes f = implFnBytes f' := by
  obtain ⟨name, args, ret⟩ := f
  obtain ⟨name', args', ret'⟩ := f'
  obtain ⟨hname, hargsR, hretR⟩ := h
  simp only at hname hargsR hretR
  have hargs := implArgListBytes_congr hR hargsR
  cases hretR with
  | none => simp only [implFnBytes, hargs, hname]
  | some ht => simp only [implFnBytes, hargs, hname, hR _ _ ht]

theorem nameLe_congr_left {R : Ty → Ty → Prop} {a b x y : PluginFunction}
    (hab : FnRel R a b) (hxy : FnRel R x y) : nameLe a x ↔ nameLe b y := by
  unfold nameLe
  rw [hab.name_eq, hxy.name_eq]

theorem orderedInsert_congr {R : Ty → Ty → Prop}
    {a b : PluginFunction} (hab : FnRel R a b) :
    ∀ {l l' : List PluginFunction}, List.Forall₂ (FnRel R) l l' →
      List.Forall₂ (FnRel R) (List.orderedInsert nameLe a l)
        (List.orderedInsert nameLe b l') := by
  intro l l' h
  induction h with
  | nil => exact List.Forall₂.cons hab List.Forall₂.nil
  | @cons x y xs ys hxy htail ih =>
    by_cases hle : nameLe a x
    · have hle' : nameLe b y := (nameLe_congr_left hab hxy).mp hle
      simp only [List.orderedInsert, if_pos hle, if_pos hle']
      exact List.Forall₂.cons hab (List.Forall₂.cons hxy htail)
    · have hle' : ¬ nameLe b y := fun h' => hle ((nameLe_congr_left hab hxy).mpr h')
      simp only [List.orderedInsert, if_neg hle, if_neg hle']
      exact List.Forall₂.cons hxy ih

theorem sortByName_congr {R : Ty → Ty → Prop} :
    ∀ {fs fs' : List PluginFunction}, List.Forall₂ (FnRel R) fs fs' →
      List.Forall₂ (FnRel R) (sortByName fs) (sortByName fs') := by
  intro fs fs' h
  induction h with
  | nil => exact List.Forall₂.nil
  | cons hfg _ ih => exact orderedInsert_congr hfg ih

theorem implFnListBytes_congr {R : Ty → Ty → Prop}
    (hR : ∀ t t', R t t' → hashType t = hashType t')
    {fs fs' : List PluginFunction} (h : List.Forall₂ (FnRel R) fs fs') :
    implFnListBytes fs = implFnListBytes fs' := by
  induction h with
  | nil => rfl
  | cons hfg _ ih => simp only [implFnListBytes, implFnBytes_congr hR hfg, ih]

/-- Congruence for the plugin-side signature: if every corresponding type in
two function lists is related by a relation `R` that `hash_type` cannot
distinguish, and names match pointwise, the signatures agree. -/
theorem implHash_congr {R : Ty → Ty → Prop}
    (hR : ∀ t t', R t t' → hashType t = hashType t')
    (i : String) {fs fs' : List PluginFunction}
    (h : List.Forall₂ (FnRel R) fs fs') : implHash i fs = implHash i fs' := by
  simp only [implHash, implHashBytes, implFnListBytes_congr hR (sortByName_congr h)]

/-! ## Characterisation of the compat-mode per-function checks -/

theorem fnChecks_ok_iff (lib : DynLibrary) :
    ∀ fns : List String, fnChecks lib fns = .ok () ↔ ∀ n ∈ fns, n ∈ lib.symbols := by
  intro fns
  induction fns with
  | nil => simp [fnChecks]
  | cons n ns ih =>
    by_cases h : n ∈ lib.symbols
    · simp [fnChecks, h, ih]
    · simp [fnChecks, h]

theorem fnChecks_error_of_missing (lib : DynLibrary) :
    ∀ fns : List String, (∃ n ∈ fns, n ∉ lib.symbols) →
      fnChecks lib fns = .error .notAPlugin := by
  intro fns
  induction fns with
  | nil => rintro ⟨n, hn, _⟩; cases hn
  | cons m ms ih =>
    rintro ⟨n, hn, hmiss⟩
    by_cases hm : m ∈ lib.symbols
    · rcases List.mem_cons.mp hn with h | h
      · exact absurd (h ▸ hm) hmiss
      · simp only [fnChecks, if_pos hm]
        exact ih ⟨n, h, hmiss⟩
    · simp only [fnChecks, if_neg hm]

/-! ## Membership characterisation of `find_plugins` results -/

theorem find_plugins_mem {expected : Nat} :
    ∀ {entries : List DirEntry} {p : DynLibrary},
      p ∈ find_plugins_list entries expected →
      ∃ e ∈ entries, ∃ openRes, e = .some openRes ∧
        (load_plugin openRes expected true).result = .ok p := by
  intro entries
  induction entries with
  | nil => intro p hp; simp [find_plugins_list] at hp
  | cons e rest ih =>
    intro p hp
    cases e with
    | none =>
      simp only [find_plugins_list] at hp
      obtain ⟨e', he', r, hr, hok⟩ := ih hp
      exact ⟨e', List.mem_cons_of_mem _ he', r, hr, hok⟩
    | some openRes =>
      by_cases hres : ∃ q, (load_plugin openRes expected true).result = .ok q
      · obtain ⟨q, hq⟩ := hres
        rw [show find_plugins_list (Option.some openRes :: rest) expected
            = q :: find_plugins_list rest expected by
          simp only [find_plugins_list, hq]] at hp
        rcases List.mem_cons.mp hp with h | h
        · exact ⟨.some openRes, List.mem_cons_self _ _, openRes, rfl, h ▸ hq⟩
        · obtain ⟨e', he', r, hr, hok⟩ := ih h
          exact ⟨e', List.mem_cons_of_mem _ he', r, hr, hok⟩
      · have hskip : find_plugins_list (Option.some openRes :: rest) expected
            = find_plugins_list rest expected := by
          cases hlr : (load_plugin openRes expected true).result with
          | ok q => exact absurd ⟨q, hlr⟩ hres
          | error err => simp only [find_plugins_list, hlr]
        rw [hskip] at hp
        obtain ⟨e', he', r, hr, hok⟩ := ih hp
        exact ⟨e', List.mem_cons_of_mem _ he', r, hr, hok⟩

theorem find_plugins_skip {expected : Nat} {e : DirEntry} {entries : List DirEntry}
    (h : e = Option.none ∨ ∃ openRes err, e = .some openRes ∧
      (load_plugin openRes expected true).result = .error err) :
    find_plugins_list (e :: entries) expected = find_plugins_list entries expected := by
  rcases h with h | ⟨openRes, err, he, herr⟩
  · subst h; simp only [find_plugins_list]
  · subst he; simp only [find_plugins_list, herr]

/-! ## Concrete types and relations used by the claims -/

/-- The path type `bool` (a named type with a single plain segment). -/
def boolTy : Ty := Ty.path false [] ⟨"bool", PathArgs.none⟩

/-- The path type `u8`. -/
def u8Ty : Ty := Ty.path false [] ⟨"u8", PathArgs.none⟩

/-- The path type `u16`. -/
def u16Ty : Ty := Ty.path false [] ⟨"u16", PathArgs.none⟩

/-- Relates two types that differ only by one level of pointer indirection
or by pointer mutability (or not at all). -/
inductive PtrRel : Ty → Ty → Prop where
  | refl (t : Ty) : PtrRel t t
  | wrap (m : Bool) (t : Ty) : PtrRel t (Ty.ptr m t)
  | unwrap (m : Bool) (t : Ty) : PtrRel (Ty.ptr m t) t
  | remut (m m' : Bool) (t : Ty) : PtrRel (Ty.ptr m t) (Ty.ptr m' t)

theorem ptrRel_hashType_eq : ∀ t t', PtrRel t t' → hashType t = hashType t' := by
  intro t t' h
  cases h with
  | refl _ => rfl
  | wrap _ _ => rfl
  | unwrap _ _ => rfl
  | remut _ _ _ => rfl

/-- Relates two plain path types (no qualified self, final segment without
generic arguments) whose final segments carry the same identifier. -/
inductive LastSegRel : Ty → Ty → Prop where
  | mk (segs segs' : List PathSeg) (id : String) :
      LastSegRel (Ty.path false segs ⟨id, PathArgs.none⟩)
        (Ty.path false segs' ⟨id, PathArgs.none⟩)

theorem lastSegRel_hashType_eq : ∀ t t', LastSegRel t t' → hashType t = hashType t' := by
  intro t t' h
  cases h with
  | mk segs segs' id => rfl

theorem foldl_hasherWrite_flatten :
    ∀ (chunks : List (List Nat)) (s : Nat),
      chunks.foldl hasherWrite s = (chunks.flatten).foldl hashStep s := by
  intro chunks
  induction chunks with
  | nil => intro s; rfl
  | cons c cs ih =>
    intro s
    simp only [List.foldl_cons, List.flatten_cons, List.foldl_append]
    exact ih (hasherWrite s c)

/-! ## The claims -/

/-- **C1** — the round-trip property fails on this code.  The plugin-side
signature of the interface `extern trait P { fn f(); }` feeds the `"fn"`
discriminator token before the function name (first conjunct shows its exact
byte stream), while the host-side `PLUGIN_SIGNATURE` from the structurally
identical definition omits every discriminator token, so the two 64-bit
values differ — no matter what byte stream `syn`'s derived `Hash` for
`Type` would feed (it is never consulted here: the function has no
parameter or return types). -/
theorem c1_round_trip_signature_mismatch :
    implHash "P" [⟨"f", [], .none⟩]
      = .ok (hashBytes (strHashBytes "P" ++ strHashBytes "fn" ++ strHashBytes "f"))
  ∧ ∀ synTypeBytes : Ty → List Nat,
      Except.ok (defHash synTypeBytes ⟨"P", [⟨"f", [], .none⟩]⟩)
        ≠ implHash "P" [⟨"f", [], .none⟩] := by
  constructor
  · decide
  · intro synTypeBytes
    have h : defHash synTypeBytes ⟨"P", [⟨"f", [], .none⟩]⟩
        = hashBytes (strHashBytes "P" ++ strHashBytes "f") := by
      simp [defHash, defHashBytes, defFnBytes, sortByName, defArgBytes]
    rw [h]
    decide

/-- **C2** — the discriminator-token separation fails on the host side of
this code.  For every type `X` and every byte encoding of types, the
host-side `PLUGIN_SIGNATURE` of `fn f() -> X;` equals that of
`fn f(x: X);` (no `"arg"`/`"ret"` tokens are fed, so both streams are the
interface name, the function name, then `X`'s bytes); the plugin side,
which does feed the tokens, distinguishes the two, shown at `X = bool`. -/
theorem c2_degenerate_argument_return_collision :
    (∀ (synTypeBytes : Ty → List Nat) (X : Ty),
        defHash synTypeBytes ⟨"P", [⟨"f", [], .some X⟩]⟩
          = defHash synTypeBytes ⟨"P", [⟨"f", [FnArg.typed X], .none⟩]⟩)
  ∧ implHash "P" [⟨"f", [], .some boolTy⟩]
      ≠ implHash "P" [⟨"f", [FnArg.typed boolTy], .none⟩] := by
  constructor
  · intro synTypeBytes X
    simp [defHash, defHashBytes, defFnBytes, sortByName, defArgBytes]
  · decide

/-- **C3** counterexample — with two functions that share the name `"f"`
(the parser accepts duplicate names), the sort by name is stable, so a
permutation that swaps them changes the sorted order and the signature:
order independence does not hold for every description and permutation. -/
theorem c3_duplicate_name_counterexample :
    ([⟨"f", [], .none⟩, ⟨"f", [], .some boolTy⟩] : List PluginFunction).Perm
        [⟨"f", [], .some boolTy⟩, ⟨"f", [], .none⟩]
  ∧ implHash "P" [⟨"f", [], .none⟩, ⟨"f", [], .some boolTy⟩]
      ≠ implHash "P" [⟨"f", [], .some boolTy⟩, ⟨"f", [], .none⟩] :=
  ⟨List.Perm.swap _ _ _, by decide⟩

/-- **C3** (amended: the function names must be pairwise distinct) — for
every interface description whose function names are pairwise distinct,
both the plugin-side signature and the host-side signature (for every type
byte encoding) are unchanged under any permutation of the function list,
while parameter order within one function remains significant: swapping
`u8`/`u16` parameters changes the hash. -/
theorem c3_function_order_independence :
    (∀ (i : String) (fs fs' : List PluginFunction), fs.Perm fs' →
        (fs.map PluginFunction.name).Nodup →
        implHash i fs = implHash i fs' ∧
          ∀ (synTypeBytes : Ty → List Nat) (n : String),
            defHash synTypeBytes ⟨n, fs⟩ = defHash synTypeBytes ⟨n, fs'⟩)
  ∧ implHash "P" [⟨"f", [FnArg.typed u8Ty, FnArg.typed u16Ty], .none⟩]
      ≠ implHash "P" [⟨"f", [FnArg.typed u16Ty, FnArg.typed u8Ty], .none⟩] := by
  constructor
  · intro i fs fs' hp hn
    have hsort : sortByName fs = sortByName fs' := sortByName_perm_eq hp hn
    constructor
    · simp only [implHash, implHashBytes, hsort]
    · intro synTypeBytes n
      simp only [defHash, defHashBytes, hsort]
  · decide

/-- Witness for the amended C3: applied to two distinct-name functions in
swapped order, the signatures coincide. -/
theorem c3_function_order_independence_witness :
    implHash "P" [⟨"a", [], .none⟩, ⟨"b", [], .some boolTy⟩]
      = implHash "P" [⟨"b", [], .some boolTy⟩, ⟨"a", [], .none⟩] :=
  (c3_function_order_independence.1 "P" _ _ (List.Perm.swap _ _ _) (by decide)).1

/-- **C4** — the hasher is the stated rolling hash: feeding any partition
of a byte sequence through `write` calls and then `finish` yields the left
fold of `state = rotate_left_8((state + byte) mod 2^64)` over the bytes in
feed order, started from 0; the rotation is the 64-bit rotate-left by 8;
`finish` applies no further transformation. -/
theorem c4_rolling_hash_fold :
    (∀ chunks : List (List Nat),
        hasherFinish (chunks.foldl hasherWrite 0) = (chunks.flatten).foldl hashStep 0)
  ∧ (∀ s b : Nat, hashStep s b = rotl8 ((s + b) % 2 ^ 64))
  ∧ (∀ x : Nat, x < 2 ^ 64 → rotl8 x = (x * 2 ^ 8 + x / 2 ^ 56) % 2 ^ 64)
  ∧ ∀ s : Nat, hasherFinish s = s := by
  refine ⟨fun chunks => foldl_hasherWrite_flatten chunks 0, fun s b => rfl, ?_, fun s => rfl⟩
  intro x hx
  unfold rotl8
  omega

/-- Witness for C4: the bound hypothesis discharged at `x = 3`. -/
theorem c4_rolling_hash_fold_witness :
    (3 : Nat) < 2 ^ 64 ∧ rotl8 3 = (3 * 2 ^ 8 + 3 / 2 ^ 56) % 2 ^ 64 :=
  ⟨by decide, c4_rolling_hash_fold.2.2.1 3 (by decide)⟩

/-- **C5** — pointer erasure: `hash_type` and `type_to_string` send
`*const T`, `*mut T` and `T` to the same canonical form (the `Type::Ptr`
arm recurses straight into the pointee, ignoring mutability), and
consequently two interface descriptions whose corresponding types differ
only by pointer mutability or one level of pointer indirection produce the
same plugin-side signature. -/
theorem c5_pointer_erasure :
    (∀ (m : Bool) (t : Ty),
        hashType (Ty.ptr m t) = hashType t
      ∧ typeToString (Ty.ptr m t) = typeToString t)
  ∧ ∀ (i : String) (fs fs' : List PluginFunction),
      List.Forall₂ (FnRel PtrRel) fs fs' → implHash i fs = implHash i fs' :=
  ⟨fun _m _t => ⟨rfl, rfl⟩,
   fun i _fs _fs' h => implHash_congr ptrRel_hashType_eq i h⟩

/-- Witness for C5: `fn f(x: *const bool) -> *mut u8` and
`fn f(x: *mut bool) -> u8` hash identically. -/
theorem c5_pointer_erasure_witness :
    implHash "P" [⟨"f", [FnArg.typed (Ty.ptr false boolTy)], .some (Ty.ptr true u8Ty)⟩]
      = implHash "P" [⟨"f", [FnArg.typed (Ty.ptr true boolTy)], .some u8Ty⟩] :=
  c5_pointer_erasure.2 "P" _ _
    (List.Forall₂.cons
      ⟨rfl,
       List.Forall₂.cons (ArgRel.typed (PtrRel.remut false true boolTy)) List.Forall₂.nil,
       OptRel.some (PtrRel.unwrap true u8Ty)⟩
      List.Forall₂.nil)

/-- **C6** — name-only canonicalization: a path type with `qself` absent
and a final segment without generic arguments canonicalizes (for hashing
and for display) to its final segment's identifier alone, regardless of the
leading segments; consequently interfaces differing only in leading path
segments of a named parameter or return type produce the same plugin-side
signature. -/
theorem c6_name_only_canonicalization :
    (∀ (segs segs' : List PathSeg) (id : String),
        hashType (Ty.path false segs ⟨id, PathArgs.none⟩)
          = hashType (Ty.path false segs' ⟨id, PathArgs.none⟩)
      ∧ typeToString (Ty.path false segs ⟨id, PathArgs.none⟩)
          = typeToString (Ty.path false segs' ⟨id, PathArgs.none⟩)
      ∧ hashType (Ty.path false segs ⟨id, PathArgs.none⟩) = .ok (strHashBytes id))
  ∧ ∀ (i : String) (fs fs' : List PluginFunction),
      List.Forall₂ (FnRel LastSegRel) fs fs' → implHash i fs = implHash i fs' :=
  ⟨fun _segs _segs' _id => ⟨rfl, rfl, rfl⟩,
   fun i _fs _fs' h => implHash_congr lastSegRel_hashType_eq i h⟩

/-- Witness for C6: a parameter typed `a::Foo` against one typed
`b::c::Foo` gives equal signatures. -/
theorem c6_name_only_canonicalization_witness :
    implHash "P" [⟨"f",
        [FnArg.typed (Ty.path false [⟨"a", PathArgs.none⟩] ⟨"Foo", PathArgs.none⟩)], .none⟩]
      = implHash "P" [⟨"f",
        [FnArg.typed (Ty.path false [⟨"b", PathArgs.none⟩, ⟨"c", PathArgs.none⟩]
          ⟨"Foo", PathArgs.none⟩)], .none⟩] :=
  c6_name_only_canonicalization.2 "P" _ _
    (List.Forall₂.cons
      ⟨rfl,
       List.Forall₂.cons (ArgRel.typed (LastSegRel.mk _ _ "Foo")) List.Forall₂.nil,
       OptRel.none⟩
      List.Forall₂.nil)

/-- A single-function interface body using the given parameter type. -/
def rejFn (t : Ty) : PluginFunction := ⟨"f", [FnArg.typed t], .none⟩

/-- A single-function interface definition using the given parameter type. -/
def rejDef (t : Ty) : PluginDefinition := ⟨"I", [rejFn t]⟩

/-- **C7** — the rejection set, on this code.  For each of the eight
constructs, the canonicalizer `hash_type` (and with it the plugin-side
`plugin_impl!` hashing) rejects with the listed reason; but on the
interface-definition side the rejected type is never routed through
`hash_type` (the definition's `Hash` impl hashes types with `syn`'s derived
`Hash`, which is total), the signature is computed anyway, and the macro
then panics at `type_to_string(..).expect(..)` with the generic message
"this should have failed earlier! please open a bug report!" instead of a
construct-identifying rejection.  Note also that the generic-argument and
lifetime-parameter constructs share one reason string. -/
theorem c7_rejection_set_vs_interface_panic :
    (hashType (Ty.path false [] ⟨"Foo", PathArgs.genericTypes⟩)
        = .error "Types cannot be generic or require lifetimes in plugin interfaces"
      ∧ implHash "I" [rejFn (Ty.path false [] ⟨"Foo", PathArgs.genericTypes⟩)]
        = .error "Types cannot be generic or require lifetimes in plugin interfaces"
      ∧ ∀ synTypeBytes, pluginInterfaceMacro synTypeBytes
          (rejDef (Ty.path false [] ⟨"Foo", PathArgs.genericTypes⟩)) = .error expectPanicMsg)
  ∧ (hashType (Ty.path false [] ⟨"Foo", PathArgs.lifetimes⟩)
        = .error "Types cannot be generic or require lifetimes in plugin interfaces"
      ∧ implHash "I" [rejFn (Ty.path false [] ⟨"Foo", PathArgs.lifetimes⟩)]
        = .error "Types cannot be generic or require lifetimes in plugin interfaces"
      ∧ ∀ synTypeBytes, pluginInterfaceMacro synTypeBytes
          (rejDef (Ty.path false [] ⟨"Foo", PathArgs.lifetimes⟩)) = .error expectPanicMsg)
  ∧ (hashType (Ty.reference boolTy)
        = .error "References are not supported in plugin interfaces (use raw pointers instead)"
      ∧ implHash "I" [rejFn (Ty.reference boolTy)]
        = .error "References are not supported in plugin interfaces (use raw pointers instead)"
      ∧ ∀ synTypeBytes, pluginInterfaceMacro synTypeBytes
          (rejDef (Ty.reference boolTy)) = .error expectPanicMsg)
  ∧ (hashType (Ty.slice boolTy)
        = .error "Slices are not supported in plugin interfaces (use raw pointers instead)"
      ∧ implHash "I" [rejFn (Ty.slice boolTy)]
        = .error "Slices are not supported in plugin interfaces (use raw pointers instead)"
      ∧ ∀ synTypeBytes, pluginInterfaceMacro synTypeBytes
          (rejDef (Ty.slice boolTy)) = .error expectPanicMsg)
  ∧ (hashType Ty.traitObject
        = .error "Trait objects not supported in plugin interfaces"
      ∧ implHash "I" [rejFn Ty.traitObject]
        = .error "Trait objects not supported in plugin interfaces"
      ∧ ∀ synTypeBytes, pluginInterfaceMacro synTypeBytes
          (rejDef Ty.traitObject) = .error expectPanicMsg)
  ∧ (hashType Ty.tuple
        = .error "Tuples not supported in plugin interfaces"
      ∧ implHash "I" [rejFn Ty.tuple]
        = .error "Tuples not supported in plugin interfaces"
      ∧ ∀ synTypeBytes, pluginInterfaceMacro synTypeBytes
          (rejDef Ty.tuple) = .error expectPanicMsg)
  ∧ (hashType Ty.infer
        = .error "Compiler inference is supported in plugin interfaces"
      ∧ implHash "I" [rejFn Ty.infer]
        = .error "Compiler inference is supported in plugin interfaces"
      ∧ ∀ synTypeBytes, pluginInterfaceMacro synTypeBytes
          (rejDef Ty.infer) = .error expectPanicMsg)
  ∧ (hashType (Ty.bareFn [] true .none)
        = .error "Bare functions with variadics are not supported in plugin interfaces"
      ∧ implHash "I" [rejFn (Ty.bareFn [] true .none)]
        = .error "Bare functions with variadics are not supported in plugin interfaces"
      ∧ ∀ synTypeBytes, pluginInterfaceMacro synTypeBytes
          (rejDef (Ty.bareFn [] true .none)) = .error expectPanicMsg) := by
  refine ⟨⟨rfl, by decide, fun _ => rfl⟩, ⟨rfl, by decide, fun _ => rfl⟩,
    ⟨rfl, by decide, fun _ => rfl⟩, ⟨rfl, by decide, fun _ => rfl⟩,
    ⟨rfl, by decide, fun _ => rfl⟩, ⟨rfl, by decide, fun _ => rfl⟩,
    ⟨rfl, by decide, fun _ => rfl⟩, ⟨rfl, by decide, fun _ => rfl⟩⟩

/-- **C8** — `load_plugin`: with the library open, absence of the
well-known `_dynamic_plugin_signature` symbol yields `NotAPlugin` (probe
never invoked); with the symbol present and `check_signature = true`, a
probe value different from the host's expected signature yields
`InvalidPluginSignature` (no plugin value produced) with the probe invoked;
with `check_signature = false` the probe is not invoked and the plugin
loads even though its signature may differ. -/
theorem c8_load_plugin_verification (lib : DynLibrary) (expected : Nat) :
    (wellKnownSymbol ∉ lib.symbols →
        ∀ check : Bool, load_plugin (.ok lib) expected check
          = ⟨.error PluginError.notAPlugin, false⟩)
  ∧ (wellKnownSymbol ∈ lib.symbols → lib.sigValue ≠ expected →
        load_plugin (.ok lib) expected true
          = ⟨.error PluginError.invalidPluginSignature, true⟩)
  ∧ (wellKnownSymbol ∈ lib.symbols →
        load_plugin (.ok lib) expected false = ⟨.ok lib, false⟩) := by
  refine ⟨fun habs check => ?_, fun hmem hne => ?_, fun hmem => ?_⟩
  · simp only [load_plugin, if_neg habs]
  · simp [load_plugin, hmem, hne]
  · simp only [load_plugin, if_pos hmem]
    rfl

/-- Witness for C8: a library exporting only the well-known symbol with
probe value 3 against expected signature 4, and a library exporting
nothing. -/
theorem c8_load_plugin_verification_witness :
    load_plugin (.ok ⟨[wellKnownSymbol], 3⟩) 4 true
        = ⟨.error PluginError.invalidPluginSignature, true⟩
  ∧ load_plugin (.ok ⟨[wellKnownSymbol], 3⟩) 4 false = ⟨.ok ⟨[wellKnownSymbol], 3⟩, false⟩
  ∧ load_plugin (.ok ⟨[], 3⟩) 4 true = ⟨.error PluginError.notAPlugin, false⟩ :=
  ⟨(c8_load_plugin_verification ⟨[wellKnownSymbol], 3⟩ 4).2.1 (by simp) (by decide),
   (c8_load_plugin_verification ⟨[wellKnownSymbol], 3⟩ 4).2.2 (by simp),
   (c8_load_plugin_verification ⟨[], 3⟩ 4).1 (by simp) true⟩

/-- **C9** counterexample — compat-mode loading of a library that lacks the
expected function symbol `"f"` returns `NotAPlugin`, not a distinct
`SymbolResolutionFailed` kind (the `Error` enum, `src/lib.rs:20-33`, has no
such variant: `PluginError` here is its full translation). -/
theorem c9_counterexample_not_a_plugin :
    load_plugin_and_check_compat (.ok ⟨["g"], 0⟩) ["f"]
      = .error PluginError.notAPlugin := by decide

/-- **C9** (amended: the missing-symbol error is `NotAPlugin`) — compat
mode resolves every expected function symbol by name only (the library
model carries no type information to inspect) and succeeds exactly when
all are present; when some expected symbol is missing it returns
`NotAPlugin`. -/
theorem c9_compat_missing_symbol (lib : DynLibrary) (fns : List String) :
    (load_plugin_and_check_compat (.ok lib) fns = .ok lib
        ↔ ∀ n ∈ fns, n ∈ lib.symbols)
  ∧ ((∃ n ∈ fns, n ∉ lib.symbols) →
        load_plugin_and_check_compat (.ok lib) fns
          = .error PluginError.notAPlugin) := by
  constructor
  · constructor
    · intro h
      rw [← fnChecks_ok_iff]
      rcases hchk : fnChecks lib fns with e | u
      · simp only [load_plugin_and_check_compat, hchk] at h
        cases h
      · rfl
    · intro h
      have hchk := (fnChecks_ok_iff lib fns).mpr h
      simp only [load_plugin_and_check_compat, hchk]
  · intro h
    have hchk := fnChecks_error_of_missing lib fns h
    simp only [load_plugin_and_check_compat, hchk]

/-- Witness for the amended C9: a library exporting `"g"` but not `"f"`. -/
theorem c9_compat_missing_symbol_witness :
    load_plugin_and_check_compat (.ok ⟨["g"], 0⟩) ["f", "g"]
      = .error PluginError.notAPlugin :=
  (c9_compat_missing_symbol ⟨["g"], 0⟩ ["f", "g"]).2
    ⟨"f", by simp, by simp⟩

/-- **C10** — `find_plugins` is total by construction (it returns a plain
list, never an error): an unreadable directory yields the empty list;
unreadable entries and entries that fail the strict load-and-check are
skipped without affecting the rest; and every returned plugin comes from
an entry that passed the full strict check
(`load_plugin` with `check_signature = true`). -/
theorem c10_find_plugins_silent_strict :
    (∀ expected : Nat, find_plugins .none expected = [])
  ∧ (∀ (expected : Nat) (entries : List DirEntry) (p : DynLibrary),
        p ∈ find_plugins (.some entries) expected →
        ∃ e ∈ entries, ∃ openRes, e = .some openRes ∧
          (load_plugin openRes expected true).result = .ok p)
  ∧ (∀ (expected : Nat) (e : DirEntry) (entries : List DirEntry),
        (e = Option.none ∨ ∃ openRes err, e = .some openRes ∧
          (load_plugin openRes expected true).result = .error err) →
        find_plugins (.some (e :: entries)) expected
          = find_plugins (.some entries) expected) :=
  ⟨fun _ => rfl,
   fun _ _ _ hp => find_plugins_mem hp,
   fun _ _ _ h => find_plugins_skip h⟩

/-- Witness for C10: a directory with one valid plugin (probe value 4,
expected 4), one mismatched library (probe 9), and one unreadable entry —
the valid plugin's presence implies it passed the strict check, and the
failing entries are skipped. -/
theorem c10_find_plugins_silent_strict_witness :
    (∃ e ∈ ([.some (.ok ⟨[wellKnownSymbol], 4⟩)] : List DirEntry),
        ∃ openRes, e = .some openRes ∧
          (load_plugin openRes 4 true).result = .ok ⟨[wellKnownSymbol], 4⟩)
  ∧ find_plugins (.some ([.some (.ok ⟨[wellKnownSymbol], 9⟩),
        .some (.ok ⟨[wellKnownSymbol], 4⟩)] : List DirEntry)) 4
      = find_plugins (.some ([.some (.ok ⟨[wellKnownSymbol], 4⟩)] : List DirEntry)) 4 :=
  ⟨c10_find_plugins_silent_strict.2.1 4 [.some (.ok ⟨[wellKnownSymbol], 4⟩)]
      ⟨[wellKnownSymbol], 4⟩ (by decide),
   c10_find_plugins_silent_strict.2.2 4 (.some (.ok ⟨[wellKnownSymbol], 9⟩)) _
      (.inr ⟨.ok ⟨[wellKnownSymbol], 9⟩, PluginError.invalidPluginSignature, rfl, by decide⟩)⟩
